import Mathlib

/-!
Verification of the fission storage/fetch/specialize pipeline
(storagesvc, multipartformdata, progress/UploadRegistry, fetcher,
tarextract) against its natural-language specification.

The Go source is shallowly embedded: pure control flow becomes Lean
functions, mutable state (the blob store, the filesystem, the upload
registry) is passed explicitly, and external effects (HTTP peers,
Kubernetes lookups, the sha256 primitive, gzip/tar decoding) are
parameters or oracles supplied to the embedded functions.
-/

namespace Fission

/-! ### Association-list maps

Go `map` values are embedded as association lists with unique keys:
`aset` overwrites the binding for a key, `aerase` deletes it,
`alookup` is `m[k], ok`. -/

def alookup {κ β : Type} [DecidableEq κ] : List (κ × β) → κ → Option β
  | [], _ => none
  | (k, v) :: rest, key => if key = k then some v else alookup rest key

def aset {κ β : Type} [DecidableEq κ] : List (κ × β) → κ → β → List (κ × β)
  | [], key, v => [(key, v)]
  | (k, w) :: rest, key, v =>
    if key = k then (key, v) :: rest else (k, w) :: aset rest key v

def aerase {κ β : Type} [DecidableEq κ] : List (κ × β) → κ → List (κ × β)
  | [], _ => []
  | (k, w) :: rest, key => if key = k then rest else (k, w) :: aerase rest key

theorem alookup_aset_self {κ β : Type} [DecidableEq κ] (m : List (κ × β)) (k : κ) (v : β) :
    alookup (aset m k v) k = some v := by
  induction m with
  | nil => simp [aset, alookup]
  | cons hd tl ih =>
    obtain ⟨k', v'⟩ := hd
    by_cases h : k = k' <;> simp [aset, alookup, h, ih]

theorem alookup_aset_ne {κ β : Type} [DecidableEq κ] (m : List (κ × β)) (k k' : κ) (v : β)
    (h : k' ≠ k) : alookup (aset m k v) k' = alookup m k' := by
  induction m with
  | nil => simp [aset, alookup, h]
  | cons hd tl ih =>
    obtain ⟨k0, v0⟩ := hd
    by_cases h0 : k = k0
    · subst h0; simp [aset, alookup, h]
    · by_cases h1 : k' = k0 <;> simp [aset, alookup, h0, h1, ih]

/-! ### storagesvc/multipartformdata/formdata.go

`ReadForm` iterates the multipart parts: parts whose form field name is
empty are skipped, every other part is handed to the visitor, which
returns either an error or a rollback action (`remover`).

The multipart byte stream itself is external (Go's `mime/multipart`);
it is embedded as the list of parts the boundary parser yields before
either clean EOF (`parseFail = false`) or a boundary-parse error
(`parseFail = true`).

A crucial point of the Go source is faithfully reproduced here: the
function declares `var err error` at the top and the deferred cleanup
closure tests that variable, but every assignment inside the loop
(`p, err := r.NextPart()` and `remover, err := visitor(...)`) uses
`:=` inside the loop's block and therefore shadows the outer `err`.
The outer `err` is consequently still `nil` on every path when the
deferred closure runs, so the accumulated removers are never invoked.
The embedding keeps the outer variable (`outerErr`) and the deferred
conditional so that this behaviour is visible. -/

structure Part where
  formName : String
  fileName : String
  content : List Nat
deriving DecidableEq

def readFormLoop {σ : Type} (visitor : Part → σ → Except String ((σ → σ) × σ)) :
    List Part → Bool → σ → List (σ → σ) → Option String × σ × List (σ → σ)
  | [], parseFail, s, removers =>
    (if parseFail then some "multipart boundary parse error" else none, s, removers)
  | p :: rest, parseFail, s, removers =>
    if p.formName = "" then
      readFormLoop visitor rest parseFail s removers
    else
      match visitor p s with
      | Except.error e => (some e, s, removers)
      | Except.ok (remover, s') =>
        readFormLoop visitor rest parseFail s' (removers ++ [remover])

def ReadForm {σ : Type} (visitor : Part → σ → Except String ((σ → σ) × σ))
    (parts : List Part) (parseFail : Bool) (s : σ) : Option String × σ :=
  -- `var err error`: never assigned again (the loop's `:=` shadows it).
  let outerErr : Option String := none
  let r := readFormLoop visitor parts parseFail s []
  -- deferred closure: `if err != nil { for _, remover := range removers { remover() } }`
  let s' := if outerErr.isSome then r.2.2.foldl (fun st f => f st) r.2.1 else r.2.1
  (r.1, s')

/-- `readFormLoop` never sees the skipped (empty-form-name) parts, so the run
over a part list coincides with the run over its visited sublist. -/
theorem readFormLoop_filter {σ : Type} (visitor : Part → σ → Except String ((σ → σ) × σ))
    (parts : List Part) (parseFail : Bool) (s : σ) (removers : List (σ → σ)) :
    readFormLoop visitor parts parseFail s removers =
      readFormLoop visitor (parts.filter (fun p => p.formName ≠ "")) parseFail s removers := by
  induction parts generalizing s removers with
  | nil => rfl
  | cons p rest ih =>
    by_cases h : p.formName = ""
    · simp [readFormLoop, h, List.filter, ih]
    · simp only [readFormLoop, h, if_false, List.filter]
      have hd : (decide ¬p.formName = "") = true := by simp [h]
      rw [hd]
      simp only [readFormLoop]
      rw [if_neg h]
      match hv : visitor p s with
      | Except.error e => rfl
      | Except.ok (remover, s') => exact ih s' (removers ++ [remover])

/-! ### storagesvc/stowClient.go — the blob store

The local stow backend stores the streamed bytes of a `Put` under the
item's name; the declared size is metadata passed to the backend and
does not change the stored bytes. The store state is the map from item
name to stored bytes; backend I/O is assumed to succeed (write errors
of the local filesystem are not modelled). -/

abbrev Store := List (String × List Nat)

/-- `putFile`: an empty upload name is replaced by a freshly generated
uuid (passed in as `freshName`); the content is written under the
resulting name. Returns (item id, new store). -/
def putFile (freshName : String) (store : Store) (uploadName : String)
    (fileSize : Int) (content : List Nat) : String × Store :=
  let name := if uploadName = "" then freshName else uploadName
  -- fileSize is forwarded to stow's Put as metadata only.
  let _ := fileSize
  (name, aset store name content)

def removeFileByID (store : Store) (itemID : String) : Store :=
  aerase store itemID

/-! ### storagesvc/storagesvc.go — uploadHandler

The handler is parameterized by the sha256 primitive (`hash`, external
crypto) and by the uuid generator outcome (`freshName`). The request
carries the first values of the `X-File-Size` and `X-File-Sha256`
headers, the mux variable `archiveID` (empty string when absent), and
the multipart body as seen by `ReadForm`. -/

/-- Go `strconv.Atoi`: optional sign followed by at least one digit and
nothing else (the int-range check is not modelled). -/
def goAtoi (s : String) : Option Int :=
  let p : Bool × List Char :=
    match s.toList with
    | '-' :: rest => (true, rest)
    | '+' :: rest => (false, rest)
    | cs => (false, cs)
  let digits := p.2
  if digits.length = 0 then none
  else if digits.all Char.isDigit then
    let n : Nat := digits.foldl (fun acc c => acc * 10 + (c.toNat - 48)) 0
    some (if p.1 then -(n : Int) else (n : Int))
  else none

structure UploadRequest where
  fileSizeHeader : Option String
  sha256Header : Option String
  archiveID : String
  parts : List Part
  parseFail : Bool
deriving DecidableEq

structure HandlerResult where
  status : Nat
  responseId : Option String
  store : Store

/-- The visitor closure built inside `uploadHandler`. Its state is the
pair (blob store, `digest` captured variable, initially `""`). A part
whose filename is not "uploaded" is an error; otherwise the part bytes
are written through the tee into the store and their digest recorded,
and the returned rollback deletes the artifact by upload name. -/
def uploadVisitor (hash : List Nat → String) (fileSize : Int)
    (uploadName freshName : String) :
    Part → Store × String → Except String ((Store × String → Store × String) × (Store × String)) :=
  fun p s =>
    if p.fileName ≠ "uploaded" then
      Except.error ("Unexpected file: " ++ p.fileName)
    else
      let store1 := (putFile freshName s.1 uploadName fileSize p.content).2
      Except.ok (fun t => (removeFileByID t.1 uploadName, t.2), (store1, hash p.content))

def uploadHandlerBody (hash : List Nat → String) (freshName : String)
    (req : UploadRequest) (store : Store) (fileSize : Int) : HandlerResult :=
  let expected := req.sha256Header.getD ""
  let uploadName := req.archiveID
  let r := ReadForm (uploadVisitor hash fileSize uploadName freshName)
    req.parts req.parseFail (store, "")
  match r with
  | (some _, s) => ⟨500, none, s.1⟩            -- "Error saving uploaded file"
  | (none, s) =>
    if s.2 = "" then ⟨400, none, s.1⟩          -- "missing upload file"
    else if expected ≠ "" ∧ s.2 ≠ expected then
      ⟨400, none, s.1⟩                          -- "Didn't match expected X-File-Sha256"
    else ⟨200, some uploadName, s.1⟩

def uploadHandler (hash : List Nat → String) (freshName : String)
    (req : UploadRequest) (store : Store) : HandlerResult :=
  match req.fileSizeHeader with
  | some s =>
    match goAtoi s with
    | none => ⟨400, none, store⟩               -- "bad X-File-Size header"
    | some n => uploadHandlerBody hash freshName req store n
  | none =>
    -- header absent: `ok` is false, fileSize stays -1 and the upload proceeds.
    uploadHandlerBody hash freshName req store (-1)

/-- A concrete stand-in for the external sha256 primitive, used by the
closed evaluations below. -/
def demoHash (bs : List Nat) : String := "h" ++ toString bs.length

/-- Helper for C1: with exactly one visited part, named "uploaded", a
non-empty upload name and no boundary failure, `uploadHandlerBody`
reaches the digest comparison with the artifact already written; on a
digest mismatch it answers 400 and leaves the artifact in the store
(the rollback registered by the visitor is never invoked on this path). -/
theorem uploadHandlerBody_mismatch (hash : List Nat → String) (freshName : String)
    (req : UploadRequest) (store : Store) (p : Part) (e : String) (fileSize : Int)
    (hvisited : req.parts.filter (fun q => q.formName ≠ "") = [p])
    (hfile : p.fileName = "uploaded")
    (hpf : req.parseFail = false)
    (hname : req.archiveID ≠ "")
    (hexp : req.sha256Header = some e) (hene : e ≠ "") (hmm : hash p.content ≠ e)
    (hdg : hash p.content ≠ "") :
    uploadHandlerBody hash freshName req store fileSize =
      ⟨400, none, aset store req.archiveID p.content⟩ := by
  have hpform : p.formName ≠ "" := by
    have hp : p ∈ req.parts.filter (fun q => q.formName ≠ "") := by
      rw [hvisited]; exact List.mem_singleton.mpr rfl
    simpa using List.of_mem_filter hp
  have hloop : readFormLoop (uploadVisitor hash fileSize req.archiveID freshName)
      req.parts req.parseFail (store, "") [] =
      (none, (aset store req.archiveID p.content, hash p.content),
        [fun t => (removeFileByID t.1 req.archiveID, t.2)]) := by
    rw [readFormLoop_filter, hvisited, hpf]
    simp [readFormLoop, uploadVisitor, hpform, hfile, putFile, hname]
  have hread : ReadForm (uploadVisitor hash fileSize req.archiveID freshName)
      req.parts req.parseFail (store, "") =
      (none, (aset store req.archiveID p.content, hash p.content)) := by
    simp [ReadForm, hloop]
  simp [uploadHandlerBody, hread, hexp, hdg, hene, hmm]

/-- **C1** counterexample. A request whose `X-File-Sha256` header differs
from the digest of the streamed part bytes is answered with 400, but
— contrary to the claim — the artifact for that upload name is still
persisted in the store after the response: the handler registers a
rollback only for multipart failures and never deletes the artifact on
a digest mismatch. -/
theorem upload_digest_mismatch_artifact_remains_cex :
    (uploadHandler demoHash "fr"
        ⟨some "3", some "bbbb", "art1", [⟨"field", "uploaded", [1, 2, 3]⟩], false⟩ []).status = 400 ∧
    alookup (uploadHandler demoHash "fr"
        ⟨some "3", some "bbbb", "art1", [⟨"field", "uploaded", [1, 2, 3]⟩], false⟩ []).store "art1" =
      some [1, 2, 3] ∧
    alookup (uploadHandler demoHash "fr"
        ⟨some "3", some "bbbb", "art1", [⟨"field", "uploaded", [1, 2, 3]⟩], false⟩ []).store "art1" ≠
      none := by
  refine ⟨rfl, rfl, ?_⟩
  decide

/-- **C1** (amended). For every upload request whose visited multipart
parts reduce to a single part named "uploaded", with a well-formed (or
absent) `X-File-Size` header, a non-empty upload name, no boundary
failure, and an `X-File-Sha256` header that differs from the sha256
digest computed over the streamed part bytes, the upload handler
responds 400 — but the artifact for that upload name remains persisted
in the store after the response (it is not rolled back). -/
theorem upload_digest_mismatch_400_artifact_persisted
    (hash : List Nat → String) (freshName : String) (req : UploadRequest) (store : Store)
    (p : Part) (e : String)
    (hsize : req.fileSizeHeader = none ∨ ∃ s n, req.fileSizeHeader = some s ∧ goAtoi s = some n)
    (hvisited : req.parts.filter (fun q => q.formName ≠ "") = [p])
    (hfile : p.fileName = "uploaded")
    (hpf : req.parseFail = false)
    (hname : req.archiveID ≠ "")
    (hexp : req.sha256Header = some e) (hene : e ≠ "") (hmm : hash p.content ≠ e)
    (hdg : hash p.content ≠ "") :
    (uploadHandler hash freshName req store).status = 400 ∧
    alookup (uploadHandler hash freshName req store).store req.archiveID = some p.content := by
  have hbody := uploadHandlerBody_mismatch hash freshName req store p e
  rcases hsize with hnone | ⟨s, n, hs, hn⟩
  · rw [uploadHandler, hnone]
    rw [hbody (-1) hvisited hfile hpf hname hexp hene hmm hdg]
    exact ⟨rfl, alookup_aset_self store req.archiveID p.content⟩
  · rw [uploadHandler, hs]
    simp only [hn]
    rw [hbody n hvisited hfile hpf hname hexp hene hmm hdg]
    exact ⟨rfl, alookup_aset_self store req.archiveID p.content⟩

/-- Witness for the amended C1 theorem at a concrete request. -/
theorem upload_digest_mismatch_400_artifact_persisted_witness :
    (uploadHandler demoHash "fresh"
        ⟨some "3", some "beef", "w1", [⟨"f", "uploaded", [9]⟩], false⟩ []).status = 400 ∧
    alookup (uploadHandler demoHash "fresh"
        ⟨some "3", some "beef", "w1", [⟨"f", "uploaded", [9]⟩], false⟩ []).store "w1" = some [9] :=
  upload_digest_mismatch_400_artifact_persisted demoHash "fresh"
    ⟨some "3", some "beef", "w1", [⟨"f", "uploaded", [9]⟩], false⟩ []
    ⟨"f", "uploaded", [9]⟩ "beef"
    (Or.inr ⟨"3", 3, rfl, by decide⟩) (by decide) rfl rfl (by decide) rfl (by decide)
    (by decide) (by decide)

/-- **C2**: evaluation of the code at the failing input. The first part
is visited successfully (its rollback — delete the artifact — is
accumulated), the second part's visitor fails; `ReadForm` returns the
error, but the accumulated rollback is NOT invoked: the artifact put by
the first part is still in the store. The deferred cleanup in the Go
source tests a shadowed, always-nil `err` variable, so it can never
fire. -/
theorem readForm_error_skips_rollback :
    ReadForm (uploadVisitor demoHash 3 "art2" "fr2")
        [⟨"a", "uploaded", [1, 2, 3]⟩, ⟨"b", "bad", []⟩] false ([], "") =
      (some "Unexpected file: bad", ([("art2", [1, 2, 3])], "h3")) := rfl

/-- **C7**: evaluation of the code at the failing input. A POST upload
request with NO `X-File-Size` header at all is not rejected: the
handler proceeds with fileSize = -1, performs the upload, and responds
200 with the artifact persisted — although the handler's own comment
says the header is required and the spec says a missing size yields
400 with no upload. (Only a present-but-unparsable header is rejected.) -/
theorem upload_missing_size_header_accepted :
    (uploadHandler demoHash "fr7"
        ⟨none, none, "art7", [⟨"field", "uploaded", [7, 7]⟩], false⟩ []).status = 200 ∧
    alookup (uploadHandler demoHash "fr7"
        ⟨none, none, "art7", [⟨"field", "uploaded", [7, 7]⟩], false⟩ []).store "art7" =
      some [7, 7] := ⟨rfl, rfl⟩

/-! ### storagesvc UploadRegistry (with early extras) and progress.Reader

The registry (`UploadRegistry` with `earlyExtras`) holds Go maps,
embedded as functions with pointwise update (`fset`) and delete
(`fdel`). `progress.Reader` objects are heap-allocated and compared by
pointer identity in `remove`; the heap is embedded as a map from a
fresh numeric id (allocated by `declare`) to the reader's state
`{n, err, extra}`. All registry operations run under one lock; each
Lean function is one critical section. -/

def fset {κ β : Type} [DecidableEq κ] (m : κ → Option β) (k : κ) (v : β) : κ → Option β :=
  fun k' => if k' = k then some v else m k'

def fdel {κ β : Type} [DecidableEq κ] (m : κ → Option β) (k : κ) : κ → Option β :=
  fun k' => if k' = k then none else m k'

structure ReaderObj (α : Type) where
  n : Nat
  err : Option String
  extra : Option α

structure RegState (α : Type) where
  nextId : Nat
  pending : String → Option (Nat × Int)     -- name ↦ (reader pointer, declared size)
  readers : Nat → Option (ReaderObj α)      -- the reader heap
  earlyExtras : String → Option α

def NewUploadRegistry (α : Type) : RegState α :=
  { nextId := 0, pending := fun _ => none, readers := fun _ => none,
    earlyExtras := fun _ => none }

/-- `declare`: allocate a fresh `progress.NewReader` (extra starts nil),
store the pending record, apply (and consume) any buffered early extra,
return the reader. -/
def RegState.declare {α : Type} (st : RegState α) (uploadName : String) (size : Int) :
    Nat × RegState α :=
  let rid := st.nextId
  let readers0 := fset st.readers rid ⟨0, none, none⟩
  let pending1 := fset st.pending uploadName (rid, size)
  match st.earlyExtras uploadName with
  | some extra =>
    (rid, { nextId := rid + 1, pending := pending1,
            readers := fset readers0 rid ⟨0, none, some extra⟩,
            earlyExtras := fdel st.earlyExtras uploadName })
  | none =>
    (rid, { nextId := rid + 1, pending := pending1, readers := readers0,
            earlyExtras := st.earlyExtras })

/-- `setExtra`: attach to the pending reader if any, otherwise buffer as
an early extra. -/
def RegState.setExtra {α : Type} (st : RegState α) (uploadName : String) (extra : α) :
    RegState α :=
  match st.pending uploadName with
  | none => { st with earlyExtras := fset st.earlyExtras uploadName extra }
  | some (rid, _) =>
    match st.readers rid with
    | some r => { st with readers := fset st.readers rid { r with extra := some extra } }
    | none => st

/-- `get`: `(counter, size)` for a pending upload, `(nil, -1)` otherwise. -/
def RegState.get {α : Type} (st : RegState α) (uploadName : String) : Option Nat × Int :=
  match st.pending uploadName with
  | none => (none, -1)
  | some (rid, size) => (some rid, size)

/-- `remove`: delete the entry only when the registered reader is
pointer-identical to the caller's. -/
def RegState.remove {α : Type} (st : RegState α) (uploadName : String) (r : Nat) :
    RegState α :=
  match st.pending uploadName with
  | some (rid, _) =>
    if rid = r then { st with pending := fdel st.pending uploadName } else st
  | none => st

/-- `Reader.Extra()` of the reader object at `rid`. -/
def RegState.readerExtra {α : Type} (st : RegState α) (rid : Nat) : Option α :=
  match st.readers rid with
  | some robj => robj.extra
  | none => none

/-- **C5**: (a) `declare(name, size, stream)` followed immediately by
`get(name)` returns the (non-nil) freshly allocated counter and the
declared size; (b) `get` of an undeclared name returns `(nil, -1)`;
(c) `remove(name, r)` with a reader not pointer-identical to the
registered one leaves the whole registry state — in particular the
entry for `name` — unchanged. -/
theorem registry_declare_get_remove {α : Type} :
    (∀ (st : RegState α) (name : String) (size : Int),
      (st.declare name size).2.get name = (some (st.declare name size).1, size)) ∧
    (∀ (st : RegState α) (name : String),
      st.pending name = none → st.get name = (none, -1)) ∧
    (∀ (st : RegState α) (name : String) (r rid : Nat) (size : Int),
      st.pending name = some (rid, size) → r ≠ rid →
        st.remove name r = st ∧ (st.remove name r).get name = (some rid, size)) := by
  refine ⟨?_, ?_, ?_⟩
  · intro st name size
    cases h : st.earlyExtras name <;>
      simp [RegState.declare, RegState.get, fset, h]
  · intro st name h
    simp [RegState.get, h]
  · intro st name r rid size h hne
    have : ¬ rid = r := fun hc => hne (hc ▸ rfl)
    constructor
    · simp [RegState.remove, h, this]
    · simp [RegState.remove, RegState.get, h, this]

/-- Witness for C5 at a concrete registry. -/
theorem registry_declare_get_remove_witness :
    (((NewUploadRegistry Nat).declare "u" 5).2.get "u" =
      (some ((NewUploadRegistry Nat).declare "u" 5).1, 5)) ∧
    ((NewUploadRegistry Nat).get "absent" = (none, -1)) ∧
    ((((NewUploadRegistry Nat).declare "u" 5).2.remove "u" 99 =
      ((NewUploadRegistry Nat).declare "u" 5).2)) :=
  ⟨(registry_declare_get_remove).1 (NewUploadRegistry Nat) "u" 5,
   (registry_declare_get_remove).2.1 (NewUploadRegistry Nat) "absent" rfl,
   ((registry_declare_get_remove).2.2 ((NewUploadRegistry Nat).declare "u" 5).2
      "u" 99 0 5 rfl (by decide)).1⟩

/-- **C6**: `setExtra(X, v)` called while no upload named `X` is pending
buffers `v` as an early extra; the subsequent `declare(X, ...)`
transfers `v` onto the new progress record — the record's `Extra()`
equals `v` — and deletes `v` from the early-extra buffer. -/
theorem registry_early_extra_applied {α : Type} (st : RegState α) (name : String)
    (v : α) (size : Int) (h : st.pending name = none) :
    (st.setExtra name v).earlyExtras name = some v ∧
    ((st.setExtra name v).declare name size).2.readerExtra
        ((st.setExtra name v).declare name size).1 = some v ∧
    ((st.setExtra name v).declare name size).2.earlyExtras name = none := by
  have hbuf : (st.setExtra name v).earlyExtras name = some v := by
    simp [RegState.setExtra, h, fset]
  refine ⟨hbuf, ?_, ?_⟩
  · simp [RegState.declare, hbuf, RegState.readerExtra, fset]
  · simp [RegState.declare, hbuf, fdel]

/-- Witness for C6 at a concrete registry. -/
theorem registry_early_extra_applied_witness :
    ((NewUploadRegistry Nat).setExtra "x" 7).earlyExtras "x" = some 7 ∧
    (((NewUploadRegistry Nat).setExtra "x" 7).declare "x" 3).2.readerExtra
        ((((NewUploadRegistry Nat).setExtra "x" 7)).declare "x" 3).1 = some 7 ∧
    (((NewUploadRegistry Nat).setExtra "x" 7).declare "x" 3).2.earlyExtras "x" = none :=
  registry_early_extra_applied (NewUploadRegistry Nat) "x" 7 3 rfl

/-! ### environments/fetcher/fetcher.go — SpecializePod retry loop

The peer (the not-yet-ready sandbox runtime at
`http://localhost:8888`) is an oracle mapping the attempt index to the
outcome of that POST: a connection-refused/dial-class error (`*url.Error`
wrapping a `*net.OpError` with `Op == "dial"`), any other transport
error, or a delivered HTTP response with its status code. (Go's HTTP
client only delivers final responses, so a delivered status is ≥ 200.)

The loop body is embedded on fuel (the remaining iterations of
`for i := 0; i < maxRetries; i++`); the result records whether the call
succeeded, how many POST attempts were made, and the sequence of
`time.Sleep` durations (in milliseconds) taken between attempts. -/

inductive AttemptOutcome
  | dialErr
  | otherErr
  | resp (status : Nat)
deriving DecidableEq

def maxRetries : Nat := 30

def specLoop (peer : Nat → AttemptOutcome) : Nat → Nat → List Nat → Bool × Nat × List Nat
  | 0, i, sleeps => (false, i, sleeps)    -- loop bound exhausted (unreachable from i = 0)
  | fuel + 1, i, sleeps =>
    match peer i with
    | AttemptOutcome.resp status =>
      if status < 300 then (true, i + 1, sleeps)      -- success, return nil
      else (false, i + 1, sleeps)                     -- err = MakeErrorFromHTTP; fatal
    | AttemptOutcome.otherErr => (false, i + 1, sleeps)  -- not dial-class; fatal
    | AttemptOutcome.dialErr =>
      if i < maxRetries - 1 then
        specLoop peer fuel (i + 1) (sleeps ++ [500 * (2 * i)])  -- time.Sleep(500 * 2i ms)
      else (false, i + 1, sleeps)                     -- budget exhausted; fatal

def SpecializePod (peer : Nat → AttemptOutcome) : Bool × Nat × List Nat :=
  specLoop peer maxRetries 0 []

/-- Unfolding a dial-retry step of the loop. -/
theorem specLoop_dial_step (peer : Nat → AttemptOutcome) (fuel i : Nat) (sleeps : List Nat)
    (hd : peer i = AttemptOutcome.dialErr) (hi : i < maxRetries - 1) :
    specLoop peer (fuel + 1) i sleeps = specLoop peer fuel (i + 1) (sleeps ++ [500 * (2 * i)]) := by
  simp [specLoop, hd, hi]

/-- Reindexing of the linear sleep sequence. -/
theorem sleepsShift (i k : Nat) :
    (500 * (2 * i)) :: (List.range k).map (fun j => 500 * (2 * (i + 1 + j))) =
    (List.range (k + 1)).map (fun j => 500 * (2 * (i + j))) := by
  rw [List.range_succ_eq_map, List.map_cons, List.map_map]
  refine congrArg₂ List.cons ?_ ?_
  · simp
  · apply List.map_congr_left
    intro j _
    simp only [Function.comp_apply]
    omega

/-- The k-dial-errors-then-2xx run, started at any index `i` with the
loop's `fuel + i = maxRetries` invariant. -/
theorem specLoop_dial_then_ok (peer : Nat → AttemptOutcome) (k : Nat) :
    ∀ (i : Nat) (sleeps : List Nat) (st : Nat),
      i + k < maxRetries →
      (∀ j, j < k → peer (i + j) = AttemptOutcome.dialErr) →
      peer (i + k) = AttemptOutcome.resp st → st < 300 →
      specLoop peer (maxRetries - i) i sleeps =
        (true, i + k + 1, sleeps ++ (List.range k).map (fun j => 500 * (2 * (i + j)))) := by
  induction k with
  | zero =>
    intro i sleeps st hlt _ hresp hst
    have hfuel : maxRetries - i = (maxRetries - i - 1) + 1 := by omega
    have hresp0 : peer i = AttemptOutcome.resp st := by simpa using hresp
    rw [hfuel]
    simp [specLoop, hresp0, hst]
  | succ k ih =>
    intro i sleeps st hlt hdial hresp hst
    have hfuel : maxRetries - i = (maxRetries - (i + 1)) + 1 := by omega
    have hd0 : peer i = AttemptOutcome.dialErr := by
      have := hdial 0 (Nat.succ_pos k)
      simpa using this
    have hi : i < maxRetries - 1 := by omega
    rw [hfuel, specLoop_dial_step peer _ i sleeps hd0 hi]
    have hdial' : ∀ j, j < k → peer (i + 1 + j) = AttemptOutcome.dialErr := by
      intro j hj
      have := hdial (j + 1) (Nat.succ_lt_succ hj)
      simpa [Nat.add_assoc, Nat.add_comm 1 j] using this
    have hresp' : peer (i + 1 + k) = AttemptOutcome.resp st := by
      simpa [Nat.add_assoc, Nat.add_comm 1 k] using hresp
    rw [ih (i + 1) (sleeps ++ [500 * (2 * i)]) st (by omega) hdial' hresp' hst]
    rw [List.append_assoc, List.singleton_append, sleepsShift i k]
    have h2 : i + 1 + k + 1 = i + (k + 1) + 1 := by omega
    rw [h2]

/-- The all-dial-errors run: the budget is exhausted after exactly
`maxRetries` attempts. -/
theorem specLoop_all_dial (peer : Nat → AttemptOutcome)
    (hdial : ∀ j, peer j = AttemptOutcome.dialErr) :
    ∀ (fuel i : Nat) (sleeps : List Nat),
      fuel + i = maxRetries → 0 < fuel →
      specLoop peer fuel i sleeps =
        (false, maxRetries,
          sleeps ++ (List.range (maxRetries - 1 - i)).map (fun j => 500 * (2 * (i + j)))) := by
  intro fuel
  induction fuel with
  | zero => intro i sleeps _ h0; omega
  | succ fuel ih =>
    intro i sleeps hinv _
    by_cases hi : i < maxRetries - 1
    · rw [specLoop_dial_step peer fuel i sleeps (hdial i) hi]
      have hfuel0 : 0 < fuel := by omega
      rw [ih (i + 1) (sleeps ++ [500 * (2 * i)]) (by omega) hfuel0]
      have hk : maxRetries - 1 - i = (maxRetries - 1 - (i + 1)) + 1 := by
        simp only [maxRetries] at hi ⊢
        omega
      rw [List.append_assoc, List.singleton_append,
        sleepsShift i (maxRetries - 1 - (i + 1)), ← hk]
    · have hieq : i = maxRetries - 1 := by omega
      subst hieq
      simp [specLoop, hdial, hi, maxRetries]

/-- **C3**: the specialize handshake retries only connection-refused/
dial-class failures, up to 30 attempts, sleeping `500·2i` ms (linear in
the attempt index `i`) between attempts:
(a) a peer that refuses connections on the first `k < 30` attempts and
then answers with a 2xx succeeds after exactly `k+1` attempts, having
slept the linear sequence;
(b) a peer that delivers a non-2xx response (e.g. 500; delivered
responses have status ≥ 200) fails on the first attempt with no retry
and no sleep;
(c) any other (non-dial) transport error likewise fails on the first
attempt with no retry;
(d) a peer that always refuses fails after exactly the 30-attempt
budget. -/
theorem specialize_retry_policy :
    (∀ (peer : Nat → AttemptOutcome) (k st : Nat),
      k < maxRetries →
      (∀ j, j < k → peer j = AttemptOutcome.dialErr) →
      peer k = AttemptOutcome.resp st → st < 300 →
      SpecializePod peer = (true, k + 1, (List.range k).map (fun j => 500 * (2 * j)))) ∧
    (∀ (peer : Nat → AttemptOutcome) (st : Nat),
      peer 0 = AttemptOutcome.resp st → 300 ≤ st →
      SpecializePod peer = (false, 1, [])) ∧
    (∀ (peer : Nat → AttemptOutcome),
      peer 0 = AttemptOutcome.otherErr → SpecializePod peer = (false, 1, [])) ∧
    (∀ (peer : Nat → AttemptOutcome),
      (∀ j, peer j = AttemptOutcome.dialErr) →
      SpecializePod peer =
        (false, maxRetries, (List.range (maxRetries - 1)).map (fun j => 500 * (2 * j)))) := by
  refine ⟨?_, ?_, ?_, ?_⟩
  · intro peer k st hk hdial hresp hst
    have h := specLoop_dial_then_ok peer k 0 [] st (by omega)
      (by intro j hj; simpa using hdial j hj) (by simpa using hresp) hst
    simpa [SpecializePod] using h
  · intro peer st hresp hst
    have h300 : ¬ st < 300 := by omega
    have hm : maxRetries = 29 + 1 := rfl
    rw [SpecializePod, hm]
    simp [specLoop, hresp, h300]
  · intro peer h
    have hm : maxRetries = 29 + 1 := rfl
    rw [SpecializePod, hm]
    simp [specLoop, h]
  · intro peer hdial
    have h := specLoop_all_dial peer hdial maxRetries 0 [] (by omega) (by decide)
    simpa [SpecializePod] using h

/-- Witness for C3: a peer refusing twice then answering 200 succeeds on
attempt 3 with sleeps 0 ms and 1000 ms; an always-500 peer, and an
other-transport-error peer, each fail after exactly one attempt with no
sleep; an always-refusing peer fails after exactly 30 attempts. -/
theorem specialize_retry_policy_witness :
    SpecializePod (fun i => if i < 2 then AttemptOutcome.dialErr else AttemptOutcome.resp 200) =
      (true, 3, [0, 1000]) ∧
    SpecializePod (fun _ => AttemptOutcome.resp 500) = (false, 1, []) ∧
    SpecializePod (fun _ => AttemptOutcome.otherErr) = (false, 1, []) ∧
    SpecializePod (fun _ => AttemptOutcome.dialErr) =
      (false, 30, (List.range 29).map (fun j => 500 * (2 * j))) := by
  refine ⟨?_, ?_, ?_, ?_⟩
  · have h := specialize_retry_policy.1
      (fun i => if i < 2 then AttemptOutcome.dialErr else AttemptOutcome.resp 200) 2 200
      (by decide) (by intro j hj; simp [hj]) (by decide) (by decide)
    rw [h]; decide
  · exact specialize_retry_policy.2.1 (fun _ => AttemptOutcome.resp 500) 500 rfl (by decide)
  · exact specialize_retry_policy.2.2.1 (fun _ => AttemptOutcome.otherErr) rfl
  · have h := specialize_retry_policy.2.2.2 (fun _ => AttemptOutcome.dialErr) (fun _ => rfl)
    rw [h]; decide

/-! ### Multi-container read lookup (write container + read-only fallbacks)

Modelled from the spec: the multi-container `StowClient` is not in the
source snapshot — `RunStorageService` in `storagesvc.go` calls
`MakeStowClient(readWriteContainer, readOnlyContainers...)` and
`ResolveContainer`, but `stowClient.go` as shipped is an older
single-container version incompatible with that caller, so the
container-lookup code this claim is about is missing (only its caller
is present). Per the spec: "container lookup for read operations tries
the write container first, then fallbacks in order, returning the
first hit; not found is reported only if every container reports
not-found, otherwise the first real error is surfaced."

A container's answer for an id is an oracle (`found`/`notFound`/
`ioError`); the scan returns the first hit, remembers the first real
error, and reports not-found only when nothing else was reported. -/

inductive LookupOutcome
  | found (content : List Nat)
  | notFound
  | ioError (e : String)
deriving DecidableEq

abbrev Container := String → LookupOutcome

inductive LookupResult
  | hit (content : List Nat)
  | errNotFound
  | err (e : String)
deriving DecidableEq

/-- Modelled from the spec: in-order scan over the containers. -/
def containersLookup : List Container → String → Option String → LookupResult
  | [], _, none => LookupResult.errNotFound
  | [], _, some e => LookupResult.err e
  | c :: rest, fileId, firstErr =>
    match c fileId with
    | LookupOutcome.found b => LookupResult.hit b
    | LookupOutcome.notFound => containersLookup rest fileId firstErr
    | LookupOutcome.ioError e =>
      containersLookup rest fileId (firstErr.orElse (fun _ => some e))

/-- Modelled from the spec: `copyFileToStream` resolves the item through
the write container first, then the read-only fallbacks in declared
order. -/
def copyFileToStream (write : Container) (readOnly : List Container) (fileId : String) :
    LookupResult :=
  containersLookup (write :: readOnly) fileId none

theorem containersLookup_hit (fileId : String) (b : List Nat) :
    ∀ (cs1 : List Container) (c : Container) (cs2 : List Container) (fe : Option String),
      (∀ c' ∈ cs1, c' fileId = LookupOutcome.notFound) →
      c fileId = LookupOutcome.found b →
      containersLookup (cs1 ++ c :: cs2) fileId fe = LookupResult.hit b := by
  intro cs1
  induction cs1 with
  | nil => intro c cs2 fe _ hc; simp [containersLookup, hc]
  | cons hd tl ih =>
    intro c cs2 fe hnf hc
    have hhd : hd fileId = LookupOutcome.notFound := hnf hd (List.mem_cons_self hd tl)
    have htl : ∀ c' ∈ tl, c' fileId = LookupOutcome.notFound :=
      fun c' hm => hnf c' (List.mem_cons_of_mem hd hm)
    simp [containersLookup, hhd, ih c cs2 fe htl hc]

theorem containersLookup_all_notFound (fileId : String) :
    ∀ (cs : List Container) (fe : Option String),
      (∀ c' ∈ cs, c' fileId = LookupOutcome.notFound) →
      containersLookup cs fileId fe =
        (match fe with
         | none => LookupResult.errNotFound
         | some e => LookupResult.err e) := by
  intro cs
  induction cs with
  | nil => intro fe _; cases fe <;> rfl
  | cons hd tl ih =>
    intro fe hnf
    have hhd : hd fileId = LookupOutcome.notFound := hnf hd (List.mem_cons_self hd tl)
    have htl : ∀ c' ∈ tl, c' fileId = LookupOutcome.notFound :=
      fun c' hm => hnf c' (List.mem_cons_of_mem hd hm)
    simp [containersLookup, hhd, ih fe htl]

theorem containersLookup_keeps_first_err (fileId : String) (e : String) :
    ∀ (cs : List Container),
      (∀ c' ∈ cs, c' fileId = LookupOutcome.notFound ∨
        ∃ e', c' fileId = LookupOutcome.ioError e') →
      containersLookup cs fileId (some e) = LookupResult.err e := by
  intro cs
  induction cs with
  | nil => intro _; rfl
  | cons hd tl ih =>
    intro hno
    have htl : ∀ c' ∈ tl, c' fileId = LookupOutcome.notFound ∨
        ∃ e', c' fileId = LookupOutcome.ioError e' :=
      fun c' hm => hno c' (List.mem_cons_of_mem hd hm)
    rcases hno hd (List.mem_cons_self hd tl) with hnf | ⟨e', herr⟩
    · simp [containersLookup, hnf, ih htl]
    · simp [containersLookup, herr, Option.orElse, ih htl]

/-- **C4** (spec-modelled): for every read lookup, the store tries the
write container first and then each read-only fallback container in
declared order:
(a) a hit in the write container is returned directly;
(b) an artifact present only in a fallback container (write and all
earlier fallbacks report not-found) is retrievable;
(c) not-found is reported only when every container reports not-found;
(d) when no container has the artifact and some container reports a
real error, the first such error is surfaced (not not-found). -/
theorem fallback_lookup_order :
    (∀ (write : Container) (ro : List Container) (fileId : String) (b : List Nat),
      write fileId = LookupOutcome.found b →
      copyFileToStream write ro fileId = LookupResult.hit b) ∧
    (∀ (write : Container) (ro1 : List Container) (c : Container) (ro2 : List Container)
        (fileId : String) (b : List Nat),
      write fileId = LookupOutcome.notFound →
      (∀ c' ∈ ro1, c' fileId = LookupOutcome.notFound) →
      c fileId = LookupOutcome.found b →
      copyFileToStream write (ro1 ++ c :: ro2) fileId = LookupResult.hit b) ∧
    (∀ (write : Container) (ro : List Container) (fileId : String),
      write fileId = LookupOutcome.notFound →
      (∀ c' ∈ ro, c' fileId = LookupOutcome.notFound) →
      copyFileToStream write ro fileId = LookupResult.errNotFound) ∧
    (∀ (cs1 : List Container) (c : Container) (cs2 : List Container) (fileId e : String),
      (∀ c' ∈ cs1, c' fileId = LookupOutcome.notFound) →
      c fileId = LookupOutcome.ioError e →
      (∀ c' ∈ cs2, c' fileId = LookupOutcome.notFound ∨
        ∃ e', c' fileId = LookupOutcome.ioError e') →
      ∀ (write : Container) (ro : List Container),
        write :: ro = cs1 ++ c :: cs2 →
        copyFileToStream write ro fileId = LookupResult.err e) := by
  refine ⟨?_, ?_, ?_, ?_⟩
  · intro write ro fileId b hw
    exact containersLookup_hit fileId b [] write ro none (by simp) hw
  · intro write ro1 c ro2 fileId b hw hnf hc
    have h := containersLookup_hit fileId b (write :: ro1) c ro2 none
      (by
        intro c' hm
        rcases List.mem_cons.mp hm with h1 | h2
        · exact h1 ▸ hw
        · exact hnf c' h2) hc
    simpa [copyFileToStream] using h
  · intro write ro fileId hw hnf
    have h := containersLookup_all_notFound fileId (write :: ro) none
      (by
        intro c' hm
        rcases List.mem_cons.mp hm with h1 | h2
        · exact h1 ▸ hw
        · exact hnf c' h2)
    simpa [copyFileToStream] using h
  · intro cs1 c cs2 fileId e hnf hc hno write ro hsplit
    rw [copyFileToStream, hsplit]
    clear hsplit
    induction cs1 with
    | nil =>
      simp [containersLookup, hc, Option.orElse]
      exact containersLookup_keeps_first_err fileId e cs2 hno
    | cons hd tl ih =>
      have hhd : hd fileId = LookupOutcome.notFound := hnf hd (List.mem_cons_self hd tl)
      have htl : ∀ c' ∈ tl, c' fileId = LookupOutcome.notFound :=
        fun c' hm => hnf c' (List.mem_cons_of_mem hd hm)
      simp [containersLookup, hhd, ih htl]

/-- Witness for C4 at concrete containers. -/
theorem fallback_lookup_order_witness :
    copyFileToStream (fun _ => LookupOutcome.found [1, 2]) [] "a" = LookupResult.hit [1, 2] ∧
    copyFileToStream (fun _ => LookupOutcome.notFound)
      [fun _ => LookupOutcome.notFound, fun _ => LookupOutcome.found [3]] "a" =
      LookupResult.hit [3] ∧
    copyFileToStream (fun _ => LookupOutcome.notFound) [fun _ => LookupOutcome.notFound] "a" =
      LookupResult.errNotFound ∧
    copyFileToStream (fun _ => LookupOutcome.ioError "disk")
      [fun _ => LookupOutcome.ioError "later", fun _ => LookupOutcome.notFound] "a" =
      LookupResult.err "disk" :=
  ⟨fallback_lookup_order.1 (fun _ => LookupOutcome.found [1, 2]) [] "a" [1, 2] rfl,
   fallback_lookup_order.2.1 (fun _ => LookupOutcome.notFound) [fun _ => LookupOutcome.notFound]
     (fun _ => LookupOutcome.found [3]) [] "a" [3] rfl
     (by intro c' hm; simp only [List.mem_singleton] at hm; subst hm; rfl) rfl,
   fallback_lookup_order.2.2.1 (fun _ => LookupOutcome.notFound) [fun _ => LookupOutcome.notFound]
     "a" rfl (by intro c' hm; simp only [List.mem_singleton] at hm; subst hm; rfl),
   fallback_lookup_order.2.2.2 [] (fun _ => LookupOutcome.ioError "disk")
     [fun _ => LookupOutcome.ioError "later", fun _ => LookupOutcome.notFound] "a" "disk"
     (by intro c' hm; simp at hm) rfl
     (by
       intro c' hm
       rcases List.mem_cons.mp hm with h1 | h2
       · exact Or.inr ⟨"later", h1 ▸ rfl⟩
       · simp at h2
         exact Or.inl (h2 ▸ rfl))
     (fun _ => LookupOutcome.ioError "disk")
     [fun _ => LookupOutcome.ioError "later", fun _ => LookupOutcome.notFound] rfl⟩

/-! ### environments/fetcher/tarextract/tarextract.go

`ExtractTarGz` streams gzip+tar extraction. The gzip/tar decoding is
external (Go's `compress/gzip` and `archive/tar`); the input is
embedded as the list of entries the tar reader yields, plus a flag for
a stream error in place of the final EOF. The filesystem is the set of
created directories and the map from path to file bytes; permission
bits are carried on the entry but not modelled on the filesystem.

Paths are processed with faithful embeddings of Go's `filepath.Clean`,
`filepath.Join` and `filepath.Dir` (unix separator). -/

def splitOnChar (sep : Char) : List Char → List (List Char)
  | [] => [[]]
  | c :: rest =>
    let r := splitOnChar sep rest
    if c = sep then [] :: r
    else
      match r with
      | [] => [[c]]
      | hd :: tl => (c :: hd) :: tl

/-- One element of `filepath.Clean`'s left-to-right processing, over the
stack of kept elements (in reverse order): empty and "." elements are
dropped; ".." pops a poppable element, is dropped at the root, and is
kept when there is nothing to pop in a relative path. -/
def cleanStep (rooted : Bool) (acc : List (List Char)) (elem : List Char) : List (List Char) :=
  if elem = [] ∨ elem = ['.'] then acc
  else if elem = ['.', '.'] then
    match acc with
    | [] => if rooted then [] else [['.', '.']]
    | a :: rest => if a = ['.', '.'] then ['.', '.'] :: a :: rest else rest
  else elem :: acc

def joinSlash : List (List Char) → List Char
  | [] => []
  | [e] => e
  | e :: rest => e ++ '/' :: joinSlash rest

/-- Go `filepath.Clean` (unix). -/
def goClean (p : String) : String :=
  let cs := p.toList
  if cs = [] then "."
  else
    let rooted := cs.head? = some '/'
    let elems := ((splitOnChar '/' cs).foldl (cleanStep rooted) []).reverse
    let body := joinSlash elems
    if rooted then String.mk ('/' :: body)
    else if body = [] then "."
    else String.mk body

/-- Go `strings.HasPrefix`. -/
def strStarts (s pre : String) : Bool :=
  decide (s.toList.take pre.toList.length = pre.toList)

/-- Go `filepath.Join` of two elements: empty elements are skipped, the
rest joined with "/" and Cleaned. -/
def goJoin (a b : String) : String :=
  if a = "" then goClean b
  else if b = "" then goClean a
  else goClean (String.mk (a.toList ++ '/' :: b.toList))

/-- Go `filepath.Dir`. -/
def goDir (p : String) : String :=
  let rev := p.toList.reverse
  let rest := rev.dropWhile (fun c => c ≠ '/')
  goClean (String.mk rest.reverse)

inductive TarType
  | dir
  | reg
  | other (flag : Nat)
deriving DecidableEq

structure TarEntry where
  name : String
  typeflag : TarType
  mode : Nat
  content : List Nat
deriving DecidableEq

structure Fs where
  dirs : List String
  files : List (String × List Nat)
deriving DecidableEq

def extractLoop (destination : String) :
    List TarEntry → Fs → List String → Option String × Fs × List String
  | [], fs, created => (none, fs, created)
  | e :: rest, fs, created =>
    let name := goClean e.name
    if strStarts name ".." then
      (some ("invalid header name: " ++ name), fs, created)
    else
      let path := goJoin destination name
      match e.typeflag with
      | TarType.dir =>
        if created.contains path then extractLoop destination rest fs created
        else
          extractLoop destination rest { fs with dirs := path :: fs.dirs } (path :: created)
      | TarType.reg =>
        let parent := goDir path
        let fc :=
          if created.contains parent then (fs, created)
          else ({ fs with dirs := parent :: fs.dirs }, parent :: created)
        let old := (alookup fc.1.files path).getD []
        -- os.OpenFile(path, O_WRONLY|O_CREATE, mode&0777) does NOT truncate:
        -- io.Copy writes the entry's bytes from offset 0, trailing bytes of a
        -- longer pre-existing file survive.
        let newContent := e.content ++ old.drop e.content.length
        extractLoop destination rest { fc.1 with files := aset fc.1.files path newContent } fc.2
      | TarType.other flag =>
        (some ("unknown header type: " ++ toString flag), fs, created)

def ExtractTarGz (entries : List TarEntry) (streamErr : Bool) (destination : String)
    (fs : Fs) : Option String × Fs :=
  match extractLoop destination entries fs [] with
  | (some e, fs', _) => (some e, fs')
  | (none, fs', _) => (if streamErr then some "reading next entry" else none, fs')

theorem extractLoop_append (destination : String) (xs ys : List TarEntry) :
    ∀ (fs : Fs) (created : List String),
      extractLoop destination (xs ++ ys) fs created =
        match extractLoop destination xs fs created with
        | (none, fs', created') => extractLoop destination ys fs' created'
        | (some e, fs', created') => (some e, fs', created') := by
  induction xs with
  | nil => intro fs created; simp [extractLoop]
  | cons e rest ih =>
    intro fs created
    by_cases hdd : strStarts (goClean e.name) ".." = true
    · simp [extractLoop, hdd]
    · simp only [Bool.not_eq_true] at hdd
      match he : e.typeflag with
      | TarType.dir =>
        by_cases hc : goJoin destination (goClean e.name) ∈ created <;>
          simp [extractLoop, hdd, he, hc, ih]
      | TarType.reg => simp [extractLoop, hdd, he, ih]
      | TarType.other flag => simp [extractLoop, hdd, he]

/-- **C8**: for every tar entry whose cleaned name starts with `..`
(e.g. `../../etc/passwd`), reached after a prefix of entries that
extracted without error, `ExtractTarGz` rejects the entry with an
error and writes nothing for it: the resulting filesystem is exactly
the one left by the prefix. -/
theorem tar_rejects_dotdot (destination : String) (fs fs1 : Fs) (created1 : List String)
    (pre : List TarEntry) (e : TarEntry) (rest : List TarEntry) (streamErr : Bool)
    (hpre : extractLoop destination pre fs [] = (none, fs1, created1))
    (hdd : strStarts (goClean e.name) ".." = true) :
    ExtractTarGz (pre ++ e :: rest) streamErr destination fs =
      (some ("invalid header name: " ++ goClean e.name), fs1) := by
  rw [ExtractTarGz, extractLoop_append destination pre (e :: rest) fs [], hpre]
  simp [extractLoop, hdd]

/-- Witness for C8: a single `../../etc/passwd` entry is rejected and
the filesystem is untouched. -/
theorem tar_rejects_dotdot_witness :
    ExtractTarGz [⟨"../../etc/passwd", TarType.reg, 420, [1]⟩] false "/data" ⟨[], []⟩ =
      (some ("invalid header name: " ++ goClean "../../etc/passwd"), (⟨[], []⟩ : Fs)) :=
  tar_rejects_dotdot "/data" ⟨[], []⟩ ⟨[], []⟩ [] []
    ⟨"../../etc/passwd", TarType.reg, 420, [1]⟩ [] false rfl (by decide)

/-- **C10**: `ExtractTarGz` opens regular-file entries with
`O_WRONLY|O_CREATE` but without truncation, so extracting an entry
over an already-existing longer file leaves the old file's trailing
bytes in place after the entry's bytes; the result is not
byte-identical to the entry content. -/
theorem tar_no_trunc_overwrite (destination : String) (fs : Fs) (e : TarEntry)
    (old : List Nat)
    (hreg : e.typeflag = TarType.reg)
    (hdd : strStarts (goClean e.name) ".." = false)
    (hold : alookup fs.files (goJoin destination (goClean e.name)) = some old)
    (hlen : e.content.length < old.length) :
    (ExtractTarGz [e] false destination fs).1 = none ∧
    alookup (ExtractTarGz [e] false destination fs).2.files
        (goJoin destination (goClean e.name)) =
      some (e.content ++ old.drop e.content.length) ∧
    e.content ++ old.drop e.content.length ≠ e.content := by
  have hne : e.content ++ old.drop e.content.length ≠ e.content := by
    intro h
    have hl := congrArg List.length h
    simp [List.length_append, List.length_drop] at hl
    omega
  refine ⟨?_, ?_, hne⟩ <;>
    simp [ExtractTarGz, extractLoop, hreg, hdd, hold, List.contains, alookup_aset_self]

/-- Witness for C10: entry bytes `[1, 2]` extracted over an existing
4-byte file `[9, 9, 9, 9]` yield `[1, 2, 9, 9]`, not `[1, 2]`. -/
theorem tar_no_trunc_overwrite_witness :
    (ExtractTarGz [⟨"f", TarType.reg, 420, [1, 2]⟩] false "/d"
        ⟨[], [("/d/f", [9, 9, 9, 9])]⟩).1 = none ∧
    alookup (ExtractTarGz [⟨"f", TarType.reg, 420, [1, 2]⟩] false "/d"
        ⟨[], [("/d/f", [9, 9, 9, 9])]⟩).2.files
        (goJoin "/d" (goClean "f")) = some ([1, 2] ++ [(9 : Nat), 9, 9, 9].drop 2) ∧
    ([1, 2] : List Nat) ++ [(9 : Nat), 9, 9, 9].drop 2 ≠ [1, 2] :=
  tar_no_trunc_overwrite "/d" ⟨[], [("/d/f", [9, 9, 9, 9])]⟩
    ⟨"f", TarType.reg, 420, [1, 2]⟩ [9, 9, 9, 9] rfl (by decide) (by decide) (by decide)

/-! ### environments/fetcher/fetcher.go — Fetch

`Fetch(ctx, req, destPath)` returns an HTTP code and an optional error.
External effects are oracles in `FetchEnv`: `os.Stat` existence,
URL downloads (producing the sha256 sum of the downloaded bytes, as
`downloadUrl` does), the package lookup against the cluster API, the
zip-format sniff (`archiver.Zip.Match`), unarchiving, renaming and the
docker layer fetch. The events performed (downloads, literal writes,
docker fetches, unarchive and rename steps) are recorded so that "no
download/staging/extraction happened" is provable as an empty event
list. Local literal writes (`ioutil.WriteFile`) are assumed to
succeed; `verifyChecksum`'s type check always passes because
`downloadUrl` always produces a sha256 checksum. -/

inductive FetchType
  | url
  | source
  | deployment
deriving DecidableEq

structure Archive where
  literal : List Nat
  url : String
  image : String
  checksum : String
deriving DecidableEq

def BuildStatusSucceeded : String := "succeeded"

def BuildStatusNone : String := "none"

structure Pkg where
  buildStatus : String
  source : Archive
  deployment : Archive
deriving DecidableEq

structure FunctionFetchRequest where
  filename : String
  fetchType : FetchType
  url : String
  keepArchive : Bool
  pkgNamespace : String
  pkgName : String
deriving DecidableEq

inductive FetchEvent
  | download (url : String) (path : String)
  | writeLiteral (path : String)
  | dockerFetch (image : String) (path : String)
  | unarchive (src : String) (dst : String)
  | rename (src : String) (dst : String)
deriving DecidableEq

structure FetchEnv where
  statExists : String → Bool
  download : String → Except String String
  getPackage : String → String → Except String Pkg
  zipMatch : String → Bool
  unarchiveErr : String → String → Option String
  renameErr : String → String → Option String
  freshUuid : String
  sharedVolumePath : String
  dockerErr : String → String → Option String

/-- The staging phase of `Fetch`: produce the artifact bytes at
`tmpPath` according to the request's source kind. -/
def fetchStage (env : FetchEnv) (req : FunctionFetchRequest) (tmpPath : String) :
    Except (Nat × String × List FetchEvent) (List FetchEvent) :=
  match req.fetchType with
  | FetchType.url =>
    match env.download req.url with
    | Except.error e =>
      Except.error (400, "Failed to download url " ++ req.url ++ ": " ++ e,
        [FetchEvent.download req.url tmpPath])
    | Except.ok _ => Except.ok [FetchEvent.download req.url tmpPath]
  | _ =>
    match env.getPackage req.pkgNamespace req.pkgName with
    | Except.error e => Except.error (500, "Failed to get package: " ++ e, [])
    | Except.ok pkg =>
      let archR : Except (Nat × String × List FetchEvent) Archive :=
        if req.fetchType = FetchType.source then Except.ok pkg.source
        else if pkg.buildStatus ≠ BuildStatusSucceeded ∧ pkg.buildStatus ≠ BuildStatusNone then
          Except.error (500,
            "Build status for the function pkg is " ++ pkg.buildStatus ++
              ", can not fetch deployment", [])
        else Except.ok pkg.deployment
      match archR with
      | Except.error x => Except.error x
      | Except.ok archive =>
        if archive.literal ≠ [] then
          Except.ok [FetchEvent.writeLiteral tmpPath]
        else if archive.url ≠ "" then
          match env.download archive.url with
          | Except.error e =>
            Except.error (400, "Failed to download url " ++ archive.url ++ ": " ++ e,
              [FetchEvent.download archive.url tmpPath])
          | Except.ok sum =>
            if sum ≠ archive.checksum then
              Except.error (400, "Failed to verify checksum",
                [FetchEvent.download archive.url tmpPath])
            else Except.ok [FetchEvent.download archive.url tmpPath]
        else if archive.image ≠ "" then
          match env.dockerErr archive.image tmpPath with
          | some e =>
            Except.error (500, e, [FetchEvent.dockerFetch archive.image tmpPath])
          | none => Except.ok [FetchEvent.dockerFetch archive.image tmpPath]
        else Except.error (400, "Nothing to fetch", [])

def Fetch (env : FetchEnv) (req : FunctionFetchRequest) (destPath : String) :
    (Nat × Option String) × List FetchEvent :=
  if req.filename.length = 0 then
    ((400, some "Fetch request received for an empty file name"), [])
  else if env.statExists destPath then
    -- "Requested file already exists. Skipping fetch"
    ((200, none), [])
  else
    let tmpPath := destPath ++ ".tmp"
    match fetchStage env req tmpPath with
    | Except.error (code, e, evs) => ((code, some e), evs)
    | Except.ok evs =>
      let unz : Except (Nat × String × List FetchEvent) (String × List FetchEvent) :=
        if ¬ req.keepArchive ∧ env.zipMatch tmpPath then
          let tmpUnarchivePath := goJoin env.sharedVolumePath env.freshUuid
          match env.unarchiveErr tmpPath tmpUnarchivePath with
          | some e =>
            Except.error (500, "Failed to unzip file: " ++ e,
              evs ++ [FetchEvent.unarchive tmpPath tmpUnarchivePath])
          | none =>
            Except.ok (tmpUnarchivePath, evs ++ [FetchEvent.unarchive tmpPath tmpUnarchivePath])
        else Except.ok (tmpPath, evs)
      match unz with
      | Except.error (code, e, evs') => ((code, some e), evs')
      | Except.ok (srcPath, evs') =>
        match env.renameErr srcPath destPath with
        | some e => ((500, some ("Failed to move file: " ++ e)), evs')
        | none => ((200, none), evs' ++ [FetchEvent.rename srcPath destPath])

/-- **C9** counterexample. A fetch request with an empty filename is
rejected with 400 even when the destination path already exists: the
empty-filename check runs before the existence short-circuit, so "for
every fetch request whose destination path already exists, Fetch
returns success" is false. -/
theorem fetch_existing_dest_empty_filename_cex :
    (Fetch
        ⟨fun _ => true, fun _ => Except.ok "", fun _ _ => Except.error "no",
          fun _ => false, fun _ _ => none, fun _ _ => none, "u", "/v", fun _ _ => none⟩
        ⟨"", FetchType.url, "http://x", false, "", ""⟩ "/dest").1.1 = 400 ∧
    (Fetch
        ⟨fun _ => true, fun _ => Except.ok "", fun _ _ => Except.error "no",
          fun _ => false, fun _ _ => none, fun _ _ => none, "u", "/v", fun _ _ => none⟩
        ⟨"", FetchType.url, "http://x", false, "", ""⟩ "/dest").1.1 ≠ 200 :=
  ⟨rfl, by decide⟩

/-- **C9** (amended). For every fetch request with a non-empty filename
whose destination path already exists, `Fetch` returns success (200, no
error) without performing any download, staging, or extraction (the
event list is empty), leaving the existing destination unchanged. -/
theorem fetch_short_circuit (env : FetchEnv) (req : FunctionFetchRequest) (destPath : String)
    (hname : req.filename.length ≠ 0)
    (hex : env.statExists destPath = true) :
    Fetch env req destPath = ((200, none), []) := by
  simp [Fetch, hname, hex]

/-- Witness for the amended C9 at a concrete environment and request. -/
theorem fetch_short_circuit_witness :
    Fetch
        ⟨fun _ => true, fun _ => Except.ok "", fun _ _ => Except.error "no",
          fun _ => false, fun _ _ => none, fun _ _ => none, "u", "/v", fun _ _ => none⟩
        ⟨"f", FetchType.url, "http://x", false, "", ""⟩ "/dest" = ((200, none), []) :=
  fetch_short_circuit
    ⟨fun _ => true, fun _ => Except.ok "", fun _ _ => Except.error "no",
      fun _ => false, fun _ _ => none, fun _ _ => none, "u", "/v", fun _ _ => none⟩
    ⟨"f", FetchType.url, "http://x", false, "", ""⟩ "/dest" (by decide) rfl

end Fission
